import Mathlib

/-!
Verification of the quote-retrieval core of the Optimus backend API.

The repository contains four variants of the same Flask/FastAPI backend:
* `src/backend-api/app.py`            — "working" variant: direct Yahoo fetch with
                                         synthetic-data fallback, TTL 300 s, cache key
                                         `symbol.upper()` (no market suffix);
* `src/backend-api/app_fastapi.py`    — FastAPI variant: yfinance with retry/backoff,
                                         TTL 600 s, cache key `symbol.upper() + ".SA"`;
* `src/backend-api/app_simple.py`     — simple variant: yfinance, TTL 300 s, cache key
                                         `symbol.upper() + ".SA"`;
* `src/backend-api/backend-api/app.py` — nested variant: yfinance, TTL 300 s, cache key
                                         the conditionally qualified symbol.

Python floats are modelled by `ℚ`, `datetime.now()` by an explicit `now : ℚ`
(seconds), `round(x, 2)` by round-half-to-even on rationals, dictionaries by
association lists with in-place overwrite, and the upstream provider / random
source by explicit oracle parameters.  Exceptions are modelled by `Except String`,
with the exception text kept verbatim because the retry controller classifies
errors by substring matching on that text.
-/

namespace Optimus

/-! ### Rounding: Python `round(x, 2)` (round-half-to-even, banker's rounding) -/

/-- Round a rational to the nearest integer, ties to the even integer
(the semantics of Python's builtin `round`). -/
def roundHalfEven (q : ℚ) : ℤ :=
  if q - ⌊q⌋ < 1/2 then ⌊q⌋
  else if 1/2 < q - ⌊q⌋ then ⌊q⌋ + 1
  else if ⌊q⌋ % 2 = 0 then ⌊q⌋ else ⌊q⌋ + 1

/-- Python `round(x, 2)`: round to two decimal places, ties to even. -/
def pyRound2 (x : ℚ) : ℚ := (roundHalfEven (x * 100) : ℚ) / 100

theorem roundHalfEven_sub_abs_le (q : ℚ) : |(roundHalfEven q : ℚ) - q| ≤ 1/2 := by
  have hfl : (⌊q⌋ : ℚ) ≤ q := Int.floor_le q
  have hfu : q < (⌊q⌋ : ℚ) + 1 := Int.lt_floor_add_one q
  unfold roundHalfEven
  split
  · rw [abs_sub_le_iff]; constructor <;> linarith
  · split
    · push_cast
      rw [abs_sub_le_iff]; constructor <;> linarith
    · split <;>
      · push_cast
        rw [abs_sub_le_iff]; constructor <;> linarith

theorem pyRound2_sub_abs_le (x : ℚ) : |pyRound2 x - x| ≤ 1/200 := by
  have h := roundHalfEven_sub_abs_le (x * 100)
  have he : pyRound2 x - x = ((roundHalfEven (x * 100) : ℚ) - x * 100) / 100 := by
    unfold pyRound2; ring
  rw [he, abs_div, abs_of_pos (by norm_num : (0:ℚ) < 100)]
  linarith

theorem pyRound2_zero : pyRound2 0 = 0 := by
  norm_num [pyRound2, roundHalfEven]

/-- The value of `roundHalfEven` never exceeds its argument by more than `1/2` in either
direction; used to bound rounded monetary outputs. -/
theorem roundHalfEven_le (q : ℚ) : (roundHalfEven q : ℚ) ≤ q + 1/2 := by
  have h := roundHalfEven_sub_abs_le q
  rw [abs_sub_le_iff] at h
  linarith [h.1]

theorem le_roundHalfEven (q : ℚ) : q - 1/2 ≤ (roundHalfEven q : ℚ) := by
  have h := roundHalfEven_sub_abs_le q
  rw [abs_sub_le_iff] at h
  linarith [h.2]

/-! ### The canonical quote record -/

/-- The canonical normalized quote produced by every variant
(the Python dict literal with keys `symbol`, `price`, `change`, `changePercent`,
`currency`, `timestamp`, `source`, `isMocked`). -/
structure Quote where
  symbol : String
  price : ℚ
  change : ℚ
  changePercent : ℚ
  currency : String
  timestamp : ℚ
  source : String
  isMocked : Bool
deriving Repr, DecidableEq

/-! ### Python dictionaries as association lists -/

/-- Python dict assignment `d[k] = v`: overwrite the binding of `k` in place if
present, otherwise append the new binding. -/
def dictInsert {α : Type} (d : List (String × α)) (k : String) (v : α) :
    List (String × α) :=
  match d with
  | [] => [(k, v)]
  | (k', v') :: rest => if k' = k then (k, v) :: rest else (k', v') :: dictInsert rest k v

theorem lookup_dictInsert_self {α : Type} (d : List (String × α)) (k : String) (v : α) :
    List.lookup k (dictInsert d k v) = some v := by
  induction d with
  | nil => simp [dictInsert, List.lookup]
  | cons p rest ih =>
    obtain ⟨k', v'⟩ := p
    by_cases h : k' = k
    · simp [dictInsert, h, List.lookup]
    · have hb : (k == k') = false := beq_eq_false_iff_ne.mpr (fun he => h he.symm)
      simp [dictInsert, if_neg h, List.lookup, hb, ih]

theorem lookup_dictInsert_of_ne {α : Type} (d : List (String × α)) (k k' : String)
    (v : α) (h : k' ≠ k) : List.lookup k' (dictInsert d k v) = List.lookup k' d := by
  induction d with
  | nil =>
    have hb : (k' == k) = false := beq_eq_false_iff_ne.mpr h
    simp [dictInsert, List.lookup, hb]
  | cons p rest ih =>
    obtain ⟨k₀, v₀⟩ := p
    by_cases h₀ : k₀ = k
    · subst h₀
      have hb : (k' == k₀) = false := beq_eq_false_iff_ne.mpr h
      simp [dictInsert, List.lookup, hb]
    · simp only [dictInsert, if_neg h₀, List.lookup]
      cases hbe : (k' == k₀) <;> simp [hbe, ih]

theorem keys_dictInsert {α : Type} (d : List (String × α)) (k : String) (v : α) :
    (dictInsert d k v).map Prod.fst =
      if k ∈ d.map Prod.fst then d.map Prod.fst else d.map Prod.fst ++ [k] := by
  induction d with
  | nil => simp [dictInsert]
  | cons p rest ih =>
    obtain ⟨k', v'⟩ := p
    by_cases h : k' = k
    · subst h
      simp [dictInsert]
    · simp only [dictInsert, if_neg h, List.map_cons]
      rw [ih]
      have hne : k ≠ k' := fun he => h he.symm
      by_cases hm : k ∈ rest.map Prod.fst
      · rw [if_pos hm, if_pos (List.mem_cons.mpr (Or.inr hm))]
      · rw [if_neg hm, if_neg (by simp [List.mem_cons, hne, hm]), List.cons_append]

/-- dict semantics: inserting preserves key uniqueness (a Python dict holds at
most one binding per key). -/
theorem nodup_keys_dictInsert {α : Type} (d : List (String × α)) (k : String) (v : α)
    (h : (d.map Prod.fst).Nodup) : ((dictInsert d k v).map Prod.fst).Nodup := by
  rw [keys_dictInsert]
  split
  · exact h
  · next hm =>
    rw [List.nodup_append]
    refine ⟨h, List.nodup_singleton k, ?_⟩
    intro a ha hb
    rw [List.mem_singleton] at hb
    subst hb
    exact hm ha

/-! ### Python string primitives

Modelled structurally over the character list of a `String`, so that concrete
runs reduce inside the kernel.  Only the ASCII behaviour matters here, where
these agree with Python's `upper`, `strip`, `split` and `in`. -/

/-- Python `s.upper()`. -/
def pyUpper (s : String) : String := String.mk (s.data.map Char.toUpper)

/-- Python `s.strip()`: drop leading and trailing whitespace. -/
def pyStrip (s : String) : String :=
  String.mk (((s.data.dropWhile Char.isWhitespace).reverse.dropWhile
    Char.isWhitespace).reverse)

/-- Helper for `splitOnChar`: the accumulated current field is kept reversed. -/
def splitOnCharAux (sep : Char) : List Char → List Char → List String
  | [], acc => [String.mk acc.reverse]
  | c :: cs, acc =>
    if c = sep then String.mk acc.reverse :: splitOnCharAux sep cs []
    else splitOnCharAux sep cs (c :: acc)

/-- Python `s.split(sep)` for a one-character separator. -/
def splitOnChar (sep : Char) (s : String) : List String := splitOnCharAux sep s.data []

/-- Helper for `containsSubstr`: does `needle` occur in the list? -/
def containsSubstrAux (needle : List Char) : List Char → Bool
  | [] => needle.isEmpty
  | c :: cs => List.isPrefixOf needle (c :: cs) || containsSubstrAux needle cs

/-! ### Error classification in the retry controller

`app_fastapi.py` classifies an exception as a rate limit by testing
`"429" in str(e) or "Too Many Requests" in str(e)`. -/

/-- Python's `needle in hay` substring test. -/
def containsSubstr (needle hay : String) : Bool := containsSubstrAux needle.data hay.data

/-- Python check `"429" in str(e) or "Too Many Requests" in str(e)` (app_fastapi.py line 65). -/
def isRateLimitError (msg : String) : Bool :=
  containsSubstr "429" msg || containsSubstr "Too Many Requests" msg

/-! ### Retry controller (`get_stock_data_with_retry`, app_fastapi.py lines 45–72)

The upstream `ticker.history(...)` call for attempt `a` is modelled by
`fetches a`, either a row list (the `Close` column of the returned frame) or a
raised exception's text.  `random.uniform(0, 1)` in the backoff is modelled by
`jitter a`.  The trace records the returned value or propagated exception, every
`time.sleep` duration in order, and how many upstream calls were made. -/

/-- Result of one upstream `ticker.history` call. -/
inductive FetchOutcome where
  | rows (hist : List ℚ)
  | err (msg : String)
deriving Repr, DecidableEq

deriving instance DecidableEq for Except

/-- Observable behaviour of one run of the retry loop. -/
structure RetryTrace where
  outcome : Except String (List ℚ)
  sleeps : List ℚ
  fetchCalls : Nat
deriving Repr, DecidableEq

/-- One iteration of the `for attempt in range(max_retries)` loop, with `fuel`
iterations remaining.  The `raise` of the no-data message happens inside the
`try` block, so it is caught and re-classified by the `except` clause before
escaping; this matters when the symbol text itself contains `"429"`. -/
def get_stock_data_with_retry_aux (fetches : Nat → FetchOutcome) (jitter : Nat → ℚ)
    (symbol : String) (max_retries : Nat) (attempt : Nat) (fuel : Nat) : RetryTrace :=
  match fuel with
  | 0 => ⟨Except.error ("Failed to fetch " ++ symbol ++ " after all retries"), [], 0⟩
  | fuel + 1 =>
    let sleepsHere : List ℚ := if 0 < attempt then [2 ^ attempt + jitter attempt] else []
    match fetches attempt with
    | FetchOutcome.rows hist =>
      if hist.isEmpty then
        if attempt = max_retries - 1 then
          let noDataMsg := "No data found for " ++ symbol ++ " after " ++
            toString max_retries ++ " attempts"
          if isRateLimitError noDataMsg then
            ⟨Except.error ("Rate limit exceeded for " ++ symbol ++ " after " ++
              toString max_retries ++ " attempts"), sleepsHere, 1⟩
          else
            ⟨Except.error noDataMsg, sleepsHere, 1⟩
        else
          let rest := get_stock_data_with_retry_aux fetches jitter symbol max_retries
            (attempt + 1) fuel
          ⟨rest.outcome, sleepsHere ++ rest.sleeps, 1 + rest.fetchCalls⟩
      else
        ⟨Except.ok hist, sleepsHere, 1⟩
    | FetchOutcome.err msg =>
      if isRateLimitError msg then
        if attempt = max_retries - 1 then
          ⟨Except.error ("Rate limit exceeded for " ++ symbol ++ " after " ++
            toString max_retries ++ " attempts"), sleepsHere, 1⟩
        else
          let rest := get_stock_data_with_retry_aux fetches jitter symbol max_retries
            (attempt + 1) fuel
          ⟨rest.outcome, sleepsHere ++ rest.sleeps, 1 + rest.fetchCalls⟩
      else
        ⟨Except.error msg, sleepsHere, 1⟩

/-- Model of `get_stock_data_with_retry(symbol, max_retries=3)` (app_fastapi.py lines 45–72). -/
def get_stock_data_with_retry (fetches : Nat → FetchOutcome) (jitter : Nat → ℚ)
    (symbol : String) (max_retries : Nat := 3) : RetryTrace :=
  get_stock_data_with_retry_aux fetches jitter symbol max_retries 0 max_retries

/-! ### Quote normalization from a price history

`app_fastapi.py` lines 94–110 and `app_simple.py` lines 58–74 share this code
verbatim.  The history frame is modelled by its `Close` column, a chronological
list of closes (`iloc[-1]` = last element, `iloc[-2]` = second to last). -/

/-- Source line `current_price = float(hist['Close'].iloc[-1])`. -/
def current_price_of (closes : List ℚ) : ℚ := closes.getLastD 0

/-- Source line `previous_close = float(hist['Close'].iloc[-2]) if len(hist) > 1 else current_price`. -/
def previous_close_of (closes : List ℚ) : ℚ :=
  if 1 < closes.length then closes.dropLast.getLastD 0 else current_price_of closes

/-- The `stock_data` dict built from a history (app_fastapi.py lines 94–110,
app_simple.py lines 58–74; the two variants differ only in the `source` tag). -/
def normalize_from_history (symbol : String) (closes : List ℚ) (now : ℚ)
    (source : String) : Quote :=
  let current_price := current_price_of closes
  let previous_close := previous_close_of closes
  let change := current_price - previous_close
  let change_percent := if previous_close ≠ 0 then (change / previous_close) * 100 else 0
  { symbol := pyUpper symbol
    price := pyRound2 current_price
    change := pyRound2 change
    changePercent := pyRound2 change_percent
    currency := "BRL"
    timestamp := now
    source := source
    isMocked := false }

/-! ### TTL cache -/

/-- The in-memory `cache` dict: key → (stock_data, cached_time). -/
abbrev Cache := List (String × (Quote × ℚ))

/-- At most one binding per key — the invariant a Python dict maintains. -/
def NodupKeys (c : Cache) : Prop := (c.map Prod.fst).Nodup

/-- Result of one `get_stock_data` call: the returned quote or the escaped
exception, the cache afterwards, and how many upstream fetch attempts were
started (0 on a fresh cache hit). -/
structure GsdResult where
  outcome : Except String Quote
  cache : Cache
  upstreamCalls : Nat
deriving DecidableEq

/-! ### FastAPI variant: `get_stock_data` (app_fastapi.py lines 74–116) -/

/-- Constant `CACHE_DURATION = 600  # 10 minutes` (app_fastapi.py line 43). -/
def CACHE_DURATION_fastapi : ℚ := 600

/-- Key expression `cache_key = f"{symbol.upper()}.SA"` (app_fastapi.py line 76). -/
def cache_key_fastapi (symbol : String) : String := pyUpper symbol ++ ".SA"

/-- Model of `get_stock_data(symbol)` of the FastAPI variant: fresh-cache hit returns the
cached quote without touching the upstream; otherwise the retrying fetch runs
and a successful result is normalized and written back to the cache. -/
def get_stock_data_fastapi (fetches : Nat → FetchOutcome) (jitter : Nat → ℚ)
    (symbol : String) (now : ℚ) (cache : Cache) : GsdResult :=
  let cache_key := cache_key_fastapi symbol
  let hit : Option Quote :=
    match List.lookup cache_key cache with
    | some (cached_data, cached_time) =>
      if now - cached_time < CACHE_DURATION_fastapi then some cached_data else none
    | none => none
  match hit with
  | some cached_data => ⟨Except.ok cached_data, cache, 0⟩
  | none =>
    match (get_stock_data_with_retry fetches jitter symbol 3).outcome with
    | Except.error e => ⟨Except.error e, cache, 1⟩
    | Except.ok hist =>
      let stock_data := normalize_from_history symbol hist now
        "Yahoo Finance (yfinance with retry)"
      ⟨Except.ok stock_data, dictInsert cache cache_key (stock_data, now), 1⟩

/-! ### Simple variant: `get_stock_data` (app_simple.py lines 34–84) -/

/-- Constant `CACHE_DURATION = 300  # 5 minutes` (app_simple.py line 15). -/
def CACHE_DURATION_simple : ℚ := 300

/-- Key expression `cache_key = f"{symbol.upper()}.SA"` (app_simple.py line 36). -/
def cache_key_simple (symbol : String) : String := pyUpper symbol ++ ".SA"

/-- Model of `get_stock_data(symbol)` of the simple variant: single fetch attempt, no
retry, no fallback; an empty history raises `No data found for {symbol}`. -/
def get_stock_data_simple (fetch : Except String (List ℚ)) (symbol : String)
    (now : ℚ) (cache : Cache) : GsdResult :=
  let cache_key := cache_key_simple symbol
  let hit : Option Quote :=
    match List.lookup cache_key cache with
    | some (cached_data, cached_time) =>
      if now - cached_time < CACHE_DURATION_simple then some cached_data else none
    | none => none
  match hit with
  | some cached_data => ⟨Except.ok cached_data, cache, 0⟩
  | none =>
    match fetch with
    | Except.error e => ⟨Except.error e, cache, 1⟩
    | Except.ok hist =>
      if hist.isEmpty then
        ⟨Except.error ("No data found for " ++ symbol), cache, 1⟩
      else
        let stock_data := normalize_from_history symbol hist now
          "Yahoo Finance (yfinance)"
        ⟨Except.ok stock_data, dictInsert cache cache_key (stock_data, now), 1⟩

/-! ### Working variant (`app.py`): direct Yahoo fetch, mock fallback -/

/-- The `meta` object of a structurally valid Yahoo chart response
(app.py lines 57–61).  A `None` JSON value and an absent key behave identically
downstream, so both are modelled by `none`. -/
structure YahooMeta where
  regularMarketPrice : Option ℚ
  previousClose : Option ℚ
  currency : Option String
deriving Repr, DecidableEq

/-- Model of `get_stock_data_from_yahoo_direct(symbol)` (app.py lines 35–82).  The HTTP
call and response-structure checks are modelled by the `fetch` parameter:
`error` covers a non-200 status, an invalid structure, or a request exception. -/
def get_stock_data_from_yahoo_direct (fetch : Except String YahooMeta)
    (symbol : String) (now : ℚ) : Except String Quote :=
  match fetch with
  | Except.error e => Except.error e
  | Except.ok meta =>
    match meta.regularMarketPrice with
    | none => Except.error "No price data in Yahoo response"
    | some current_price =>
      let previous_close := meta.previousClose.getD current_price
      let change := if previous_close ≠ 0 then current_price - previous_close else 0
      let change_percent := if previous_close ≠ 0 then (change / previous_close) * 100 else 0
      Except.ok
        { symbol := pyUpper symbol
          price := pyRound2 current_price
          change := pyRound2 change
          changePercent := pyRound2 change_percent
          currency := meta.currency.getD "BRL"
          timestamp := now
          source := "Yahoo Finance Direct"
          isMocked := false }

/-- The static symbol → base-price table of the mock generator
(app.py lines 86–90). -/
def base_prices : List (String × ℚ) :=
  [("PETR4", 38.45), ("VALE3", 58.82), ("ITUB4", 32.25), ("BBDC4", 13.12),
   ("ABEV3", 11.94), ("WEGE3", 51.95), ("MGLU3", 4.72), ("HYPE3", 22.98),
   ("TAEE11", 35.32), ("TOTS3", 28.95), ("CMIG4", 10.92), ("BRAP4", 32.45)]

/-- Model of `get_mock_stock_data(symbol)` (app.py lines 84–111); `random.random()` is
modelled by the `rand` parameter (a value in `[0, 1)`). -/
def get_mock_stock_data (rand : ℚ) (symbol : String) (now : ℚ) : Quote :=
  let base_price := (List.lookup (pyUpper symbol) base_prices).getD 25
  let variation := (rand - 1/2) * (4/100)
  let current_price := base_price * (1 + variation)
  let change := current_price - base_price
  let change_percent := (change / base_price) * 100
  { symbol := pyUpper symbol
    price := pyRound2 current_price
    change := pyRound2 change
    changePercent := pyRound2 change_percent
    currency := "BRL"
    timestamp := now
    source := "Realistic Mock Data"
    isMocked := true }

/-- Constant `CACHE_DURATION = 300  # 5 minutes` (app.py line 16). -/
def CACHE_DURATION_working : ℚ := 300

/-- Key expression `cache_key = symbol.upper()` (app.py line 115) — note: no market suffix. -/
def cache_key_working (symbol : String) : String := pyUpper symbol

/-- Model of `get_stock_data(symbol)` of the fallback-capable working variant
(app.py lines 113–136): on upstream failure the mock quote substitutes for the
real one and is cached exactly the same way. -/
def get_stock_data_working (fetch : Except String YahooMeta) (rand : ℚ)
    (symbol : String) (now : ℚ) (cache : Cache) : GsdResult :=
  let cache_key := cache_key_working symbol
  let hit : Option Quote :=
    match List.lookup cache_key cache with
    | some (cached_data, cached_time) =>
      if now - cached_time < CACHE_DURATION_working then some cached_data else none
    | none => none
  match hit with
  | some cached_data => ⟨Except.ok cached_data, cache, 0⟩
  | none =>
    let stock_data :=
      match get_stock_data_from_yahoo_direct fetch symbol now with
      | Except.ok q => q
      | Except.error _ => get_mock_stock_data rand symbol now
    ⟨Except.ok stock_data, dictInsert cache cache_key (stock_data, now), 1⟩

/-! ### Nested variant (`backend-api/app.py`): conditional symbol qualification -/

/-- Qualification `yf_symbol` (backend-api/app.py lines 35–38): append `.SA` when the raw
symbol does not already end with it and is short enough to be a bare ticker. -/
def yf_symbol_nested (symbol : String) : String :=
  if ¬ (List.isSuffixOf ".SA".data symbol.data) ∧ symbol.length ≤ 6 then
    symbol ++ ".SA"
  else
    symbol

/-! ### Batch orchestrator: `get_multiple_stocks`

The per-symbol pipeline (`get_stock_data`) is abstracted by `fetchFor`, the
error-entry format by `fmt` (the variants disagree on it). -/

/-- The response of a successful batch call. -/
structure BatchResult where
  results : List (String × Quote)
  total_requested : Nat
  total_successful : Nat
  errors : Option (List String)
deriving DecidableEq

/-- A batch call either returns an HTTP error response (status, message) or a
batch result. -/
inductive BatchOutcome where
  | httpError (status : Nat) (message : String)
  | ok (r : BatchResult)
deriving DecidableEq

/-- Parse expression `[s.strip().upper() for s in symbols.split(',') if s.strip()]`. -/
def parse_symbols (symbols : String) : List String :=
  ((splitOnChar ',' symbols).filter (fun s => pyStrip s ≠ "")).map
    (fun s => pyUpper (pyStrip s))

/-- The per-symbol loop of `get_multiple_stocks`: accumulate successes in the
`results` dict and formatted failures in the `errors` list; also count the
`get_stock_data` dispatches. -/
def get_multiple_stocks_loop (fmt : String → String → String)
    (fetchFor : String → Except String Quote) (symbols : List String)
    (results : List (String × Quote)) (errors : List String) :
    List (String × Quote) × List String × Nat :=
  match symbols with
  | [] => (results, errors, 0)
  | s :: rest =>
    match fetchFor s with
    | Except.ok q =>
      let r := get_multiple_stocks_loop fmt fetchFor rest (dictInsert results s q) errors
      (r.1, r.2.1, r.2.2 + 1)
    | Except.error e =>
      let r := get_multiple_stocks_loop fmt fetchFor rest results (errors ++ [fmt s e])
      (r.1, r.2.1, r.2.2 + 1)

/-- Entry format `errors.append(f"{symbol}: {str(e)}")` (app_fastapi.py line 196). -/
def error_entry_fastapi (symbol msg : String) : String := symbol ++ ": " ++ msg

/-- Entry format `error_msg = f"Failed to fetch {symbol}: {str(e)}"` (backend-api/app.py line 157). -/
def error_entry_nested (symbol msg : String) : String :=
  "Failed to fetch " ++ symbol ++ ": " ++ msg

/-- Model of `get_multiple_stocks` of the FastAPI variant (app_fastapi.py lines 161–206),
returning the outcome together with the number of per-symbol dispatches. -/
def get_multiple_stocks_fastapi (fetchFor : String → Except String Quote)
    (symbols : String) : BatchOutcome × Nat :=
  if symbols = "" then
    (BatchOutcome.httpError 400 "Missing symbols parameter - provide only portfolio stocks", 0)
  else
    let symbol_list := parse_symbols symbols
    if 20 < symbol_list.length then
      (BatchOutcome.httpError 400 "Too many symbols requested. Maximum 20 portfolio stocks allowed.", 0)
    else
      let r := get_multiple_stocks_loop error_entry_fastapi fetchFor symbol_list [] []
      (BatchOutcome.ok
        { results := r.1
          total_requested := symbol_list.length
          total_successful := r.1.length
          errors := if r.2.1.isEmpty then none else some r.2.1 }, r.2.2)

/-- Model of `get_multiple_stocks` of the nested variant (backend-api/app.py
lines 130–171): also rejects a parsed-empty symbol list, has no 20-symbol
ceiling, and formats error entries with a `Failed to fetch` preamble. -/
def get_multiple_stocks_nested (fetchFor : String → Except String Quote)
    (symbols_param : String) : BatchOutcome × Nat :=
  if symbols_param = "" then
    (BatchOutcome.httpError 400 "Missing symbols parameter. Use ?symbols=PETR4,VALE3,ITUB4", 0)
  else
    let symbols := parse_symbols symbols_param
    if symbols.isEmpty then
      (BatchOutcome.httpError 400 "No valid symbols provided", 0)
    else
      let r := get_multiple_stocks_loop error_entry_nested fetchFor symbols [] []
      (BatchOutcome.ok
        { results := r.1
          total_requested := symbols.length
          total_successful := r.1.length
          errors := if r.2.1.isEmpty then none else some r.2.1 }, r.2.2)

/-! ### Helper lemmas -/

theorem current_price_concat (xs : List ℚ) (a b : ℚ) :
    current_price_of (xs ++ [a, b]) = b := by
  have h : xs ++ [a, b] = (xs ++ [a]) ++ [b] := by simp
  rw [current_price_of, h, List.getLastD_concat]

theorem previous_close_concat (xs : List ℚ) (a b : ℚ) :
    previous_close_of (xs ++ [a, b]) = a := by
  have h : xs ++ [a, b] = (xs ++ [a]) ++ [b] := by simp
  rw [previous_close_of, if_pos (by simp), h, List.dropLast_concat, List.getLastD_concat]

theorem current_price_singleton (a : ℚ) : current_price_of [a] = a := rfl

theorem previous_close_singleton (a : ℚ) : previous_close_of [a] = a := rfl

/-- Every base price in the static table is at least `4.72` (the MGLU3 entry),
and the default for unknown symbols is `25`; hence every base price is positive. -/
theorem base_price_lower (k : String) :
    (472/100 : ℚ) ≤ (List.lookup k base_prices).getD 25 := by
  have htab : ∀ p ∈ base_prices, (472/100 : ℚ) ≤ p.2 := by
    intro p hp
    fin_cases hp <;> norm_num
  have : ∀ (l : List (String × ℚ)), (∀ p ∈ l, (472/100 : ℚ) ≤ p.2) →
      (472/100 : ℚ) ≤ (List.lookup k l).getD 25 := by
    intro l
    induction l with
    | nil => intro _; norm_num [List.lookup]
    | cons p rest ih =>
      intro hl
      obtain ⟨k₀, v₀⟩ := p
      rw [List.lookup]
      cases hbe : (k == k₀)
      · exact ih (fun q hq => hl q (List.mem_cons_of_mem _ hq))
      · simpa using hl (k₀, v₀) (List.mem_cons_self _ _)
  exact this base_prices htab

/-- If `|x| ≤ 2` then `|round(x, 2)| ≤ 2` (the bound `2` is exactly
representable at two decimals, so banker's rounding cannot overshoot it). -/
theorem abs_pyRound2_le_two (x : ℚ) (h : |x| ≤ 2) : |pyRound2 x| ≤ 2 := by
  rw [abs_le] at h
  set r := roundHalfEven (x * 100) with hr
  have h1 : (r : ℚ) ≤ x * 100 + 1/2 := roundHalfEven_le (x * 100)
  have h2 : x * 100 - 1/2 ≤ (r : ℚ) := le_roundHalfEven (x * 100)
  have hup : r ≤ 200 := by
    have : (r : ℚ) < 201 := by linarith [h.2]
    exact_mod_cast Int.lt_add_one_iff.mp (by exact_mod_cast this)
  have hlo : -200 ≤ r := by
    have : (-201 : ℚ) < r := by linarith [h.1]
    have h' : (-201 : ℤ) < r := by exact_mod_cast this
    omega
  rw [pyRound2, abs_le]
  constructor
  · rw [le_div_iff₀ (by norm_num : (0:ℚ) < 100)]
    have hc : ((-200 : ℤ) : ℚ) ≤ (r : ℚ) := by exact_mod_cast hlo
    push_cast at hc
    linarith
  · rw [div_le_iff₀ (by norm_num : (0:ℚ) < 100)]
    have hc : (r : ℚ) ≤ ((200 : ℤ) : ℚ) := by exact_mod_cast hup
    push_cast at hc
    linarith

/-! ### Claim theorems -/

/-- C3: in every normalizer (the shared yfinance normalization of the FastAPI,
simple and nested variants, and the direct-Yahoo normalization of the working
variant), a quote whose previous close is zero gets `changePercent = 0`; the
division deriving `changePercent` sits under an explicit `previous_close != 0`
guard, so it is never executed with a zero divisor. -/
theorem claim_C3 :
    (∀ symbol closes now source, previous_close_of closes = 0 →
      (normalize_from_history symbol closes now source).changePercent = 0)
    ∧ (∀ fetch symbol now q,
        get_stock_data_from_yahoo_direct fetch symbol now = Except.ok q →
        ∀ meta current_price, fetch = Except.ok meta →
          meta.regularMarketPrice = some current_price →
          meta.previousClose.getD current_price = 0 →
          q.changePercent = 0) := by
  constructor
  · intro symbol closes now source h
    simp only [normalize_from_history, h]
    simp [pyRound2_zero]
  · intro fetch symbol now q hq meta current_price hf hrm hp
    subst hf
    simp only [get_stock_data_from_yahoo_direct, hrm, hp] at hq
    rw [Except.ok.injEq] at hq
    rw [← hq]
    simp [pyRound2_zero]

theorem claim_C3_witness :
    previous_close_of [0, 5] = 0 ∧
    (normalize_from_history "PETR4" [0, 5] 1 "Yahoo Finance (yfinance)").changePercent = 0 := by
  have h : previous_close_of [0, 5] = 0 := previous_close_concat [] 0 5
  exact ⟨h, claim_C3.1 "PETR4" [0, 5] 1 "Yahoo Finance (yfinance)" h⟩

/-- C7: for a non-empty history the normalizer takes `price` from the most
recent close; the previous close is the second-most-recent close when at least
two observations exist (history `xs ++ [a, b]`: price from `b`, previous close
`a`), and equals the current price itself on a single observation, yielding
zero change and zero change-percent as a defined edge case. -/
theorem claim_C7 :
    ∀ symbol now source,
      (∀ (xs : List ℚ) (a b : ℚ),
        current_price_of (xs ++ [a, b]) = b ∧
        previous_close_of (xs ++ [a, b]) = a ∧
        (normalize_from_history symbol (xs ++ [a, b]) now source).price = pyRound2 b ∧
        (normalize_from_history symbol (xs ++ [a, b]) now source).change = pyRound2 (b - a))
      ∧ (∀ a : ℚ,
        current_price_of [a] = a ∧
        previous_close_of [a] = a ∧
        (normalize_from_history symbol [a] now source).price = pyRound2 a ∧
        (normalize_from_history symbol [a] now source).change = 0 ∧
        (normalize_from_history symbol [a] now source).changePercent = 0) := by
  intro symbol now source
  constructor
  · intro xs a b
    refine ⟨current_price_concat xs a b, previous_close_concat xs a b, ?_, ?_⟩
    · simp only [normalize_from_history, current_price_concat]
    · simp only [normalize_from_history, current_price_concat, previous_close_concat]
  · intro a
    refine ⟨rfl, rfl, rfl, ?_, ?_⟩
    · simp only [normalize_from_history, current_price_singleton, previous_close_singleton,
        sub_self]
      exact pyRound2_zero
    · simp only [normalize_from_history, current_price_singleton, previous_close_singleton,
        sub_self]
      by_cases ha : a = 0
      · simp [ha, pyRound2_zero]
      · simp [ha, pyRound2_zero]

/-- C8 (corrected): the fallback generator always succeeds, marks the quote
`isMocked = true` with provenance tag `"Realistic Mock Data"` (not the literal
string `"synthetic"`), and returns a positive price equal to the symbol's base
price (default `25` for unknown symbols) perturbed by at most ±2 %, with
`|changePercent| ≤ 2`. -/
theorem claim_C8 (rand : ℚ) (symbol : String) (now : ℚ)
    (h0 : 0 ≤ rand) (h1 : rand ≤ 1) :
    (get_mock_stock_data rand symbol now).isMocked = true ∧
    (get_mock_stock_data rand symbol now).source = "Realistic Mock Data" ∧
    0 < (get_mock_stock_data rand symbol now).price ∧
    |(get_mock_stock_data rand symbol now).changePercent| ≤ 2 ∧
    (∃ variation : ℚ, |variation| ≤ 2/100 ∧
      (get_mock_stock_data rand symbol now).price =
        pyRound2 (((List.lookup (pyUpper symbol) base_prices).getD 25) * (1 + variation))) := by
  set base := (List.lookup (pyUpper symbol) base_prices).getD 25 with hbase
  have hbl : (472/100 : ℚ) ≤ base := base_price_lower (pyUpper symbol)
  have hbpos : (0:ℚ) < base := lt_of_lt_of_le (by norm_num) hbl
  set v : ℚ := (rand - 1/2) * (4/100) with hv
  have hvabs : |v| ≤ 2/100 := by
    rw [hv, abs_mul, abs_of_pos (by norm_num : (0:ℚ) < 4/100)]
    have : |rand - 1/2| ≤ 1/2 := by
      rw [abs_le]; constructor <;> linarith
    nlinarith [abs_nonneg (rand - 1/2)]
  have hprice : (get_mock_stock_data rand symbol now).price = pyRound2 (base * (1 + v)) := rfl
  have hmock : (get_mock_stock_data rand symbol now).isMocked = true := rfl
  have hsrc : (get_mock_stock_data rand symbol now).source = "Realistic Mock Data" := rfl
  have hcp : (get_mock_stock_data rand symbol now).changePercent =
      pyRound2 ((base * (1 + v) - base) / base * 100) := rfl
  refine ⟨hmock, hsrc, ?_, ?_, v, hvabs, hprice⟩
  · -- positivity of the rounded price
    rw [hprice]
    have hveps : -(2/100 : ℚ) ≤ v := (abs_le.mp hvabs).1
    have hval : (462/100 : ℚ) ≤ base * (1 + v) := by nlinarith
    have hround := pyRound2_sub_abs_le (base * (1 + v))
    rw [abs_le] at hround
    linarith [hround.2]
  · rw [hcp]
    have heq : (base * (1 + v) - base) / base * 100 = v * 100 := by
      field_simp
      ring
    rw [heq]
    apply abs_pyRound2_le_two
    calc |v * 100| = |v| * 100 := by rw [abs_mul]; norm_num
    _ ≤ (2/100) * 100 := by nlinarith [abs_nonneg v]
    _ = 2 := by norm_num

theorem claim_C8_counterexample :
    (get_mock_stock_data (1/2) "UNKNOWN" 0).source = "Realistic Mock Data" ∧
    (get_mock_stock_data (1/2) "UNKNOWN" 0).source ≠ "synthetic" := by
  exact ⟨rfl, by decide⟩

/-! ### Retry-loop structure lemmas -/

theorem retry_aux_fetchCalls_le (fetches : Nat → FetchOutcome) (jitter : Nat → ℚ)
    (symbol : String) (m : Nat) :
    ∀ fuel attempt,
      (get_stock_data_with_retry_aux fetches jitter symbol m attempt fuel).fetchCalls ≤
        fuel := by
  intro fuel
  induction fuel with
  | zero => intro attempt; simp [get_stock_data_with_retry_aux]
  | succ f ih =>
    intro attempt
    simp only [get_stock_data_with_retry_aux]
    cases hf : fetches attempt with
    | rows hist =>
      simp only [hf]
      by_cases he : hist.isEmpty
      · by_cases ha : attempt = m - 1
        · simp only [he, ha, if_true, ite_true]
          split <;> simp
        · have := ih (attempt + 1)
          simp only [he, ha, if_true, if_false, ite_true, ite_false]
          omega
      · simp [he]
    | err msg =>
      simp only [hf]
      by_cases hrl : isRateLimitError msg
      · by_cases ha : attempt = m - 1
        · simp [hrl, ha]
        · have := ih (attempt + 1)
          simp only [hrl, ha, if_true, if_false, ite_true, ite_false]
          omega
      · simp [hrl]

/-- For a loop entered at a positive attempt index, the sleeps are exactly one
per executed attempt, in order, each equal to `2 ^ attempt + jitter attempt`. -/
theorem retry_aux_sleeps_pos (fetches : Nat → FetchOutcome) (jitter : Nat → ℚ)
    (symbol : String) (m : Nat) :
    ∀ fuel attempt, 1 ≤ attempt →
      (get_stock_data_with_retry_aux fetches jitter symbol m attempt fuel).sleeps =
        (List.range' attempt
          (get_stock_data_with_retry_aux fetches jitter symbol m attempt fuel).fetchCalls).map
          (fun a => 2 ^ a + jitter a) := by
  intro fuel
  induction fuel with
  | zero => intro attempt _; simp [get_stock_data_with_retry_aux]
  | succ f ih =>
    intro attempt hpos
    have hgt : 0 < attempt := hpos
    simp only [get_stock_data_with_retry_aux]
    cases hf : fetches attempt with
    | rows hist =>
      simp only [hf]
      by_cases he : hist.isEmpty
      · by_cases ha : attempt = m - 1
        · have hm : 1 < m := by omega
          simp only [he, ha, if_true, ite_true]
          split <;> simp [hm, List.range'_succ]
        · have hihs := ih (attempt + 1) (by omega)
          simp only [he, ha, if_true, if_false, ite_true, ite_false, hgt]
          rw [Nat.add_comm 1, List.range'_succ]
          simp [hihs]
      · simp [he, hgt, List.range'_succ]
    | err msg =>
      simp only [hf]
      by_cases hrl : isRateLimitError msg
      · by_cases ha : attempt = m - 1
        · have hm : 1 < m := by omega
          simp [hrl, ha, hm, List.range'_succ]
        · have hihs := ih (attempt + 1) (by omega)
          simp only [hrl, ha, if_true, if_false, ite_true, ite_false, hgt]
          rw [Nat.add_comm 1, List.range'_succ]
          simp [hihs]
      · simp [hrl, hgt, List.range'_succ]

/-- Top-level sleep trace: attempt 0 contributes no sleep; the sleeps are one
per retry attempt `1, 2, …`, each `2 ^ attempt + jitter attempt`. -/
theorem retry_sleeps (fetches : Nat → FetchOutcome) (jitter : Nat → ℚ)
    (symbol : String) (m : Nat) :
    (get_stock_data_with_retry fetches jitter symbol m).sleeps =
      (List.range' 1 ((get_stock_data_with_retry fetches jitter symbol m).fetchCalls - 1)).map
        (fun a => 2 ^ a + jitter a) := by
  rw [get_stock_data_with_retry]
  cases m with
  | zero => simp [get_stock_data_with_retry_aux]
  | succ n =>
    simp only [get_stock_data_with_retry_aux]
    cases hf : fetches 0 with
    | rows hist =>
      simp only [hf]
      by_cases he : hist.isEmpty
      · by_cases ha : 0 = n + 1 - 1
        · simp only [he, ha, if_true, ite_true]
          split <;> simp
        · have hihs := retry_aux_sleeps_pos fetches jitter symbol (n + 1) n 1 (by omega)
          simp only [he, ha, if_true, if_false, ite_true, ite_false]
          simp only [Nat.lt_irrefl, ite_false]
          rw [hihs]
          simp [Nat.add_sub_cancel_left]
      · simp [he]
    | err msg =>
      simp only [hf]
      by_cases hrl : isRateLimitError msg
      · by_cases ha : 0 = n + 1 - 1
        · simp [hrl, ha]
        · have hihs := retry_aux_sleeps_pos fetches jitter symbol (n + 1) n 1 (by omega)
          simp only [hrl, ha, if_true, if_false, ite_true, ite_false]
          simp only [Nat.lt_irrefl, ite_false]
          rw [hihs]
          simp [Nat.add_sub_cancel_left]
      · simp [hrl]

/-- C6: in the retry loop, attempt 0 never sleeps; the sleeps are exactly one
per retry attempt `a = 1 .. maxRetries-1` that executes, each of duration
`2 ^ a + jitter a` where `jitter a` models `random.uniform(0, 1)`, hence each
of duration at least `2 ^ a` when the jitter is non-negative. -/
theorem claim_C6 (fetches : Nat → FetchOutcome) (jitter : Nat → ℚ) (symbol : String)
    (max_retries : Nat) (hj : ∀ a, 0 ≤ jitter a) :
    (get_stock_data_with_retry fetches jitter symbol max_retries).sleeps =
      (List.range' 1
        ((get_stock_data_with_retry fetches jitter symbol max_retries).fetchCalls - 1)).map
        (fun a => 2 ^ a + jitter a) ∧
    ∀ d ∈ (get_stock_data_with_retry fetches jitter symbol max_retries).sleeps,
      ∃ a, 1 ≤ a ∧ a ≤ max_retries - 1 ∧ d = 2 ^ a + jitter a ∧ (2:ℚ) ^ a ≤ d := by
  refine ⟨retry_sleeps fetches jitter symbol max_retries, ?_⟩
  intro d hd
  rw [retry_sleeps fetches jitter symbol max_retries, List.mem_map] at hd
  obtain ⟨a, ha, rfl⟩ := hd
  rw [List.mem_range'] at ha
  obtain ⟨i, hi, rfl⟩ := ha
  have hfc : (get_stock_data_with_retry fetches jitter symbol max_retries).fetchCalls ≤
      max_retries := retry_aux_fetchCalls_le fetches jitter symbol max_retries max_retries 0
  exact ⟨1 + 1 * i, by omega, by omega, rfl, by linarith [hj (1 + 1 * i)]⟩

theorem claim_C6_witness :
    ∃ a, 1 ≤ a ∧ a ≤ 3 - 1 ∧ (5/2 : ℚ) = 2 ^ a + (1:ℚ)/2 ∧ (2:ℚ) ^ a ≤ 5/2 := by
  have hs : (get_stock_data_with_retry (fun _ => FetchOutcome.err "HTTP 429")
      (fun _ => 1/2) "PETR4" 3).sleeps = [2 + 1/2, 4 + 1/2] := by
    norm_num [get_stock_data_with_retry, get_stock_data_with_retry_aux, isRateLimitError,
      containsSubstr, containsSubstrAux, List.isPrefixOf]
  have hmem : (5/2 : ℚ) ∈ (get_stock_data_with_retry (fun _ => FetchOutcome.err "HTTP 429")
      (fun _ => 1/2) "PETR4" 3).sleeps := by
    rw [hs]; norm_num
  exact (claim_C6 (fun _ => FetchOutcome.err "HTTP 429") (fun _ => (1:ℚ)/2) "PETR4" 3
    (fun _ => by norm_num)).2 (5/2) hmem

/-- A non-rate-limited exception at some attempt is re-raised at once: one
upstream call from that point, no further sleeps, the original message kept. -/
theorem retry_aux_err_propagates (fetches : Nat → FetchOutcome) (jitter : Nat → ℚ)
    (symbol : String) (m : Nat) (fuel attempt : Nat) (msg : String)
    (hfuel : 1 ≤ fuel) (hf : fetches attempt = FetchOutcome.err msg)
    (hrl : isRateLimitError msg = false) :
    get_stock_data_with_retry_aux fetches jitter symbol m attempt fuel =
      ⟨Except.error msg,
       if 0 < attempt then [2 ^ attempt + jitter attempt] else [], 1⟩ := by
  cases fuel with
  | zero => omega
  | succ f => simp [get_stock_data_with_retry_aux, hf, hrl]

theorem retry_aux_allRL (fetches : Nat → FetchOutcome) (jitter : Nat → ℚ)
    (symbol : String) (m : Nat)
    (hall : ∀ i, i < m → ∃ msg, fetches i = FetchOutcome.err msg ∧
      isRateLimitError msg = true) :
    ∀ fuel attempt, attempt + fuel = m → 1 ≤ fuel →
      (get_stock_data_with_retry_aux fetches jitter symbol m attempt fuel).outcome =
        Except.error ("Rate limit exceeded for " ++ symbol ++ " after " ++
          toString m ++ " attempts") ∧
      (get_stock_data_with_retry_aux fetches jitter symbol m attempt fuel).fetchCalls =
        fuel := by
  intro fuel
  induction fuel with
  | zero => intro attempt _ h; omega
  | succ f ih =>
    intro attempt hsum _
    obtain ⟨msg, hf, hrl⟩ := hall attempt (by omega)
    rcases Nat.eq_zero_or_pos f with h0 | hpos
    · subst h0
      have ha : attempt = m - 1 := by omega
      simp only [get_stock_data_with_retry_aux]
      rw [hf]
      simp only [hrl, ite_true, if_pos ha]
      exact ⟨by trivial, by trivial⟩
    · have ha : ¬(attempt = m - 1) := by omega
      have hrest := ih (attempt + 1) (by omega) (by omega)
      simp only [get_stock_data_with_retry_aux]
      rw [hf]
      simp only [hrl, ite_true, if_neg ha]
      exact ⟨hrest.1, by rw [hrest.2]; omega⟩

theorem retry_aux_allEmpty (fetches : Nat → FetchOutcome) (jitter : Nat → ℚ)
    (symbol : String) (m : Nat)
    (hall : ∀ i, i < m → fetches i = FetchOutcome.rows [])
    (hnd : isRateLimitError ("No data found for " ++ symbol ++ " after " ++
      toString m ++ " attempts") = false) :
    ∀ fuel attempt, attempt + fuel = m → 1 ≤ fuel →
      (get_stock_data_with_retry_aux fetches jitter symbol m attempt fuel).outcome =
        Except.error ("No data found for " ++ symbol ++ " after " ++
          toString m ++ " attempts") ∧
      (get_stock_data_with_retry_aux fetches jitter symbol m attempt fuel).fetchCalls =
        fuel := by
  intro fuel
  induction fuel with
  | zero => intro attempt _ h; omega
  | succ f ih =>
    intro attempt hsum _
    have hf := hall attempt (by omega)
    rcases Nat.eq_zero_or_pos f with h0 | hpos
    · subst h0
      have ha : attempt = m - 1 := by omega
      simp only [get_stock_data_with_retry_aux]
      rw [hf]
      simp only [List.isEmpty_nil, ite_true, if_pos ha, hnd, ite_false]
      exact ⟨by trivial, by trivial⟩
    · have ha : ¬(attempt = m - 1) := by omega
      have hrest := ih (attempt + 1) (by omega) (by omega)
      simp only [get_stock_data_with_retry_aux]
      rw [hf]
      simp only [List.isEmpty_nil, ite_true, if_neg ha]
      exact ⟨hrest.1, by rw [hrest.2]; omega⟩

/-- C2 (corrected): in the retrying fetch, a non-rate-limited error at the
first attempt is propagated immediately (one upstream call, no sleeps, no
further attempts); when every attempt is rate-limited the loop exhausts all
`m` attempts and surfaces the rate-limit-exhausted failure; and when every
attempt returns an empty result set the final attempt surfaces the NoData
failure — provided the NoData message itself (which embeds the caller's symbol
text) is not classified as rate-limited by the substring check. -/
theorem claim_C2 (fetches : Nat → FetchOutcome) (jitter : Nat → ℚ) (symbol : String)
    (m : Nat) (hm : 1 ≤ m) :
    (∀ msg, fetches 0 = FetchOutcome.err msg → isRateLimitError msg = false →
      get_stock_data_with_retry fetches jitter symbol m = ⟨Except.error msg, [], 1⟩)
    ∧ ((∀ i, i < m → ∃ msg, fetches i = FetchOutcome.err msg ∧
        isRateLimitError msg = true) →
      (get_stock_data_with_retry fetches jitter symbol m).outcome =
        Except.error ("Rate limit exceeded for " ++ symbol ++ " after " ++
          toString m ++ " attempts") ∧
      (get_stock_data_with_retry fetches jitter symbol m).fetchCalls = m)
    ∧ ((∀ i, i < m → fetches i = FetchOutcome.rows []) →
      isRateLimitError ("No data found for " ++ symbol ++ " after " ++
        toString m ++ " attempts") = false →
      (get_stock_data_with_retry fetches jitter symbol m).outcome =
        Except.error ("No data found for " ++ symbol ++ " after " ++
          toString m ++ " attempts") ∧
      (get_stock_data_with_retry fetches jitter symbol m).fetchCalls = m) := by
  refine ⟨?_, ?_, ?_⟩
  · intro msg hf hrl
    rw [get_stock_data_with_retry,
      retry_aux_err_propagates fetches jitter symbol m m 0 msg hm hf hrl]
    simp
  · intro hall
    simpa using retry_aux_allRL fetches jitter symbol m hall m 0 (by omega) hm
  · intro hall hnd
    simpa using retry_aux_allEmpty fetches jitter symbol m hall hnd m 0 (by omega) hm

/-- C2 counterexample: for the symbol `"429"` an empty result set on the final
attempt is surfaced as the rate-limit-exhausted failure, not the NoData
failure — the NoData message embeds the symbol and therefore matches the
`"429" in str(e)` classification. -/
theorem claim_C2_counterexample :
    (get_stock_data_with_retry (fun _ => FetchOutcome.rows []) (fun _ => 0) "429" 3).outcome =
      Except.error "Rate limit exceeded for 429 after 3 attempts" ∧
    "Rate limit exceeded for 429 after 3 attempts" ≠
      "No data found for 429 after 3 attempts" := by
  exact ⟨by decide, by decide⟩

theorem claim_C2_witness :
    get_stock_data_with_retry (fun _ => FetchOutcome.err "boom") (fun _ => 0) "PETR4" 3 =
      ⟨Except.error "boom", [], 1⟩ := by
  exact (claim_C2 (fun _ => FetchOutcome.err "boom") (fun _ => 0) "PETR4" 3
    (by norm_num)).1 "boom" rfl (by decide)

theorem claim_C8_witness :
    (0:ℚ) ≤ 1/2 ∧ (1/2:ℚ) ≤ 1 ∧
    (get_mock_stock_data (1/2) "UNKNOWN" 0).isMocked = true ∧
    0 < (get_mock_stock_data (1/2) "UNKNOWN" 0).price ∧
    |(get_mock_stock_data (1/2) "UNKNOWN" 0).changePercent| ≤ 2 := by
  have h := claim_C8 (1/2) "UNKNOWN" 0 (by norm_num) (by norm_num)
  exact ⟨by norm_num, by norm_num, h.1, h.2.2.1, h.2.2.2.1⟩

/-! ### Cache behaviour -/

/-- A concrete quote used to instantiate cache scenarios. -/
def sampleQuote : Quote :=
  { symbol := "PETR4", price := 38, change := 1, changePercent := 2, currency := "BRL",
    timestamp := 0, source := "Yahoo Finance (yfinance with retry)", isMocked := false }

/-- C1: in both cited variants (FastAPI, TTL 600 s; working, TTL 300 s) a
lookup strictly less than TTL seconds after a symbol's quote was stored returns
the stored quote unchanged, leaves the cache untouched and performs no
upstream fetch; a lookup at or after TTL does not serve the entry and starts
an upstream refresh before returning. -/
theorem claim_C1 :
    (∀ (fetches : Nat → FetchOutcome) (jitter : Nat → ℚ) (symbol : String)
        (now : ℚ) (cache : Cache) (q : Quote) (t0 : ℚ),
      List.lookup (cache_key_fastapi symbol) cache = some (q, t0) →
      (now - t0 < CACHE_DURATION_fastapi →
        get_stock_data_fastapi fetches jitter symbol now cache = ⟨Except.ok q, cache, 0⟩) ∧
      (CACHE_DURATION_fastapi ≤ now - t0 →
        (get_stock_data_fastapi fetches jitter symbol now cache).upstreamCalls = 1))
    ∧ (∀ (fetch : Except String YahooMeta) (rand : ℚ) (symbol : String)
        (now : ℚ) (cache : Cache) (q : Quote) (t0 : ℚ),
      List.lookup (cache_key_working symbol) cache = some (q, t0) →
      (now - t0 < CACHE_DURATION_working →
        get_stock_data_working fetch rand symbol now cache = ⟨Except.ok q, cache, 0⟩) ∧
      (CACHE_DURATION_working ≤ now - t0 →
        (get_stock_data_working fetch rand symbol now cache).upstreamCalls = 1)) := by
  constructor
  · intro fetches jitter symbol now cache q t0 hl
    constructor
    · intro hfresh
      simp only [get_stock_data_fastapi, hl, if_pos hfresh]
    · intro hstale
      simp only [get_stock_data_fastapi, hl, if_neg (not_lt.mpr hstale)]
      split <;> rfl
  · intro fetch rand symbol now cache q t0 hl
    constructor
    · intro hfresh
      simp only [get_stock_data_working, hl, if_pos hfresh]
    · intro hstale
      simp only [get_stock_data_working, hl, if_neg (not_lt.mpr hstale)]

theorem claim_C1_witness :
    get_stock_data_fastapi (fun _ => FetchOutcome.rows [10]) (fun _ => 0) "petr4" 599
        [("PETR4.SA", (sampleQuote, 0))] =
      ⟨Except.ok sampleQuote, [("PETR4.SA", (sampleQuote, 0))], 0⟩ ∧
    (get_stock_data_fastapi (fun _ => FetchOutcome.rows [10]) (fun _ => 0) "petr4" 600
        [("PETR4.SA", (sampleQuote, 0))]).upstreamCalls = 1 ∧
    get_stock_data_working (Except.error "down") 0 "petr4" 299
        [("PETR4", (sampleQuote, 0))] =
      ⟨Except.ok sampleQuote, [("PETR4", (sampleQuote, 0))], 0⟩ ∧
    (get_stock_data_working (Except.error "down") 0 "petr4" 300
        [("PETR4", (sampleQuote, 0))]).upstreamCalls = 1 := by
  have hk1 : cache_key_fastapi "petr4" = "PETR4.SA" := by decide
  have hk2 : cache_key_working "petr4" = "PETR4" := by decide
  have hl1 : List.lookup (cache_key_fastapi "petr4") [("PETR4.SA", (sampleQuote, (0:ℚ)))] =
      some (sampleQuote, (0:ℚ)) := by rw [hk1]; rfl
  have hl2 : List.lookup (cache_key_working "petr4") [("PETR4", (sampleQuote, (0:ℚ)))] =
      some (sampleQuote, (0:ℚ)) := by rw [hk2]; rfl
  refine ⟨?_, ?_, ?_, ?_⟩
  · exact ((claim_C1.1 (fun _ => FetchOutcome.rows [10]) (fun _ => 0) "petr4" 599
      [("PETR4.SA", (sampleQuote, 0))] sampleQuote 0) hl1).1
      (by norm_num [CACHE_DURATION_fastapi])
  · exact ((claim_C1.1 (fun _ => FetchOutcome.rows [10]) (fun _ => 0) "petr4" 600
      [("PETR4.SA", (sampleQuote, 0))] sampleQuote 0) hl1).2
      (by norm_num [CACHE_DURATION_fastapi])
  · exact ((claim_C1.2 (Except.error "down") 0 "petr4" 299
      [("PETR4", (sampleQuote, 0))] sampleQuote 0) hl2).1
      (by norm_num [CACHE_DURATION_working])
  · exact ((claim_C1.2 (Except.error "down") 0 "petr4" 300
      [("PETR4", (sampleQuote, 0))] sampleQuote 0) hl2).2
      (by norm_num [CACHE_DURATION_working])

/-- C10: in the fallback-capable working variant, an upstream failure caches
the synthetic quote exactly as a real quote would be cached, so every
subsequent request for the same symbol within the TTL window returns the
`isMocked = true` quote with no upstream attempt — for any upstream state,
including a recovered provider. -/
theorem claim_C10 (fetch : Except String YahooMeta) (e : String) (rand : ℚ)
    (symbol : String) (now : ℚ) (cache : Cache)
    (hf : fetch = Except.error e)
    (hmiss : List.lookup (cache_key_working symbol) cache = none) :
    (get_stock_data_working fetch rand symbol now cache).outcome =
      Except.ok (get_mock_stock_data rand symbol now) ∧
    (get_mock_stock_data rand symbol now).isMocked = true ∧
    (get_stock_data_working fetch rand symbol now cache).upstreamCalls = 1 ∧
    (get_stock_data_working fetch rand symbol now cache).cache =
      dictInsert cache (cache_key_working symbol)
        (get_mock_stock_data rand symbol now, now) ∧
    (∀ (fetch2 : Except String YahooMeta) (rand2 now2 : ℚ),
      now2 - now < CACHE_DURATION_working →
      get_stock_data_working fetch2 rand2 symbol now2
          (get_stock_data_working fetch rand symbol now cache).cache =
        ⟨Except.ok (get_mock_stock_data rand symbol now),
         (get_stock_data_working fetch rand symbol now cache).cache, 0⟩) := by
  subst hf
  have hrun : get_stock_data_working (Except.error e) rand symbol now cache =
      ⟨Except.ok (get_mock_stock_data rand symbol now),
       dictInsert cache (cache_key_working symbol)
         (get_mock_stock_data rand symbol now, now), 1⟩ := by
    simp only [get_stock_data_working, hmiss, get_stock_data_from_yahoo_direct]
  refine ⟨by rw [hrun], rfl, by rw [hrun], by rw [hrun], ?_⟩
  intro fetch2 rand2 now2 hfresh
  rw [hrun]
  have hl : List.lookup (cache_key_working symbol)
      (dictInsert cache (cache_key_working symbol)
        (get_mock_stock_data rand symbol now, now)) =
      some (get_mock_stock_data rand symbol now, now) :=
    lookup_dictInsert_self cache (cache_key_working symbol) _
  simp only [get_stock_data_working, hl, if_pos hfresh]

theorem claim_C10_witness :
    (get_stock_data_working (Except.error "down") (1/2) "PETR4" 0 []).outcome =
      Except.ok (get_mock_stock_data (1/2) "PETR4" 0) ∧
    (get_mock_stock_data (1/2) "PETR4" 0).isMocked = true ∧
    get_stock_data_working (Except.ok ⟨some 10, some 9, none⟩) 0 "PETR4" 299
        (get_stock_data_working (Except.error "down") (1/2) "PETR4" 0 []).cache =
      ⟨Except.ok (get_mock_stock_data (1/2) "PETR4" 0),
       (get_stock_data_working (Except.error "down") (1/2) "PETR4" 0 []).cache, 0⟩ := by
  have h := claim_C10 (Except.error "down") "down" (1/2) "PETR4" 0 [] rfl rfl
  exact ⟨h.1, h.2.1, h.2.2.2.2 (Except.ok ⟨some 10, some 9, none⟩) 0 299
    (by norm_num [CACHE_DURATION_working])⟩

/-! ### Cache-key discipline -/

theorem isPrefixOf_self_append (l t : List Char) : List.isPrefixOf l (l ++ t) = true := by
  induction l with
  | nil => simp [List.isPrefixOf]
  | cons a as ih => simp [List.isPrefixOf, ih]

theorem isSuffixOf_append_self (l t : List Char) : List.isSuffixOf l (t ++ l) = true := by
  simp only [List.isSuffixOf, List.reverse_append]
  exact isPrefixOf_self_append l.reverse t.reverse

/-- C9 (corrected): every variant's cache is a dict, so it holds at most one
entry per key, and every `get_stock_data` transition preserves that invariant;
keys collapse spellings with equal upper-casing in every variant; and only the
nested variant's conditional qualification is idempotent, collapsing a bare
ticker with its suffix-qualified spelling onto one key. -/
theorem claim_C9 :
    (∀ (c : Cache) (k : String) (v : Quote × ℚ),
      NodupKeys c → NodupKeys (dictInsert c k v)) ∧
    (∀ fetch rand symbol now c, NodupKeys c →
      NodupKeys (get_stock_data_working fetch rand symbol now c).cache) ∧
    (∀ fetches jitter symbol now c, NodupKeys c →
      NodupKeys (get_stock_data_fastapi fetches jitter symbol now c).cache) ∧
    (∀ fetch symbol now c, NodupKeys c →
      NodupKeys (get_stock_data_simple fetch symbol now c).cache) ∧
    (∀ s t, pyUpper s = pyUpper t →
      cache_key_working s = cache_key_working t ∧
      cache_key_simple s = cache_key_simple t ∧
      cache_key_fastapi s = cache_key_fastapi t) ∧
    (∀ s, yf_symbol_nested (yf_symbol_nested s) = yf_symbol_nested s) := by
  refine ⟨?_, ?_, ?_, ?_, ?_, ?_⟩
  · intro c k v h
    exact nodup_keys_dictInsert c k v h
  · intro fetch rand symbol now c h
    simp only [get_stock_data_working]
    split
    · exact h
    · exact nodup_keys_dictInsert c _ _ h
  · intro fetches jitter symbol now c h
    simp only [get_stock_data_fastapi]
    split
    · exact h
    · split
      · exact h
      · exact nodup_keys_dictInsert c _ _ h
  · intro fetch symbol now c h
    simp only [get_stock_data_simple]
    split
    · exact h
    · split
      · exact h
      · split
        · exact h
        · exact nodup_keys_dictInsert c _ _ h
  · intro s t hst
    exact ⟨hst, by rw [cache_key_simple, cache_key_simple, hst],
      by rw [cache_key_fastapi, cache_key_fastapi, hst]⟩
  · intro s
    by_cases hc : ¬ (List.isSuffixOf ".SA".data s.data) ∧ s.length ≤ 6
    · have h1 : yf_symbol_nested s = s ++ ".SA" := by
        rw [yf_symbol_nested, if_pos hc]
      rw [h1, yf_symbol_nested, if_neg]
      intro hcon
      have : List.isSuffixOf ".SA".data (s ++ ".SA").data = true := by
        rw [String.data_append]
        exact isSuffixOf_append_self ".SA".data s.data
      exact hcon.1 (by simp [this])
    · have h1 : yf_symbol_nested s = s := by
        rw [yf_symbol_nested, if_neg hc]
      rw [h1, h1]

/-- C9 counterexample: `"PETR4"` and `"PETR4.SA"` qualify to the same provider
symbol under the nested variant's qualification, yet the working variant keys
them differently (and without any market suffix), as does the simple variant —
so suffix-differing spellings of one ticker do not collapse to a single cache
entry there. -/
theorem claim_C9_counterexample :
    yf_symbol_nested "PETR4" = "PETR4.SA" ∧
    yf_symbol_nested "PETR4.SA" = "PETR4.SA" ∧
    cache_key_working "PETR4" = "PETR4" ∧
    cache_key_working "PETR4" ≠ cache_key_working "PETR4.SA" ∧
    cache_key_simple "PETR4" ≠ cache_key_simple "PETR4.SA" := by
  refine ⟨by decide, by decide, by decide, by decide, by decide⟩

theorem claim_C9_witness :
    NodupKeys [("PETR4.SA", (sampleQuote, (0:ℚ)))] ∧
    NodupKeys (get_stock_data_working (Except.error "down") (1/2) "VALE3" 400
      [("PETR4.SA", (sampleQuote, (0:ℚ)))]).cache ∧
    cache_key_working "petr4" = cache_key_working "PETR4" ∧
    yf_symbol_nested (yf_symbol_nested "PETR4") = yf_symbol_nested "PETR4" := by
  have hn : NodupKeys [("PETR4.SA", (sampleQuote, (0:ℚ)))] := by
    simp [NodupKeys]
  refine ⟨hn, claim_C9.2.1 (Except.error "down") (1/2) "VALE3" 400 _ hn, ?_, ?_⟩
  · exact (claim_C9.2.2.2.2.1 "petr4" "PETR4" (by decide)).1
  · exact claim_C9.2.2.2.2.2 "PETR4"

/-! ### Batch orchestrator lemmas -/

/-- One step of the batch loop's effect on the results dict. -/
def batch_step (fetchFor : String → Except String Quote)
    (d : List (String × Quote)) (s : String) : List (String × Quote) :=
  match fetchFor s with
  | Except.ok q => dictInsert d s q
  | Except.error _ => d

theorem gms_loop_spec (fmt : String → String → String)
    (fetchFor : String → Except String Quote) :
    ∀ (L : List String) (res : List (String × Quote)) (errs : List String),
      get_multiple_stocks_loop fmt fetchFor L res errs =
        (L.foldl (batch_step fetchFor) res,
         errs ++ L.filterMap (fun s => match fetchFor s with
           | Except.ok _ => none
           | Except.error e => some (fmt s e)),
         L.length) := by
  intro L
  induction L with
  | nil => intro res errs; simp [get_multiple_stocks_loop]
  | cons s rest ih =>
    intro res errs
    simp only [get_multiple_stocks_loop]
    cases hfs : fetchFor s with
    | ok q =>
      simp only [hfs, ih, List.foldl_cons, List.filterMap_cons, batch_step]
      simp [hfs]
    | error e =>
      simp only [hfs, ih, List.foldl_cons, List.filterMap_cons, batch_step]
      simp [hfs, List.append_assoc]

theorem batch_foldl_lookup (fetchFor : String → Except String Quote) :
    ∀ (L : List String) (res : List (String × Quote)) (s : String),
      List.lookup s (L.foldl (batch_step fetchFor) res) =
        match fetchFor s with
        | Except.ok q => if s ∈ L then some q else List.lookup s res
        | Except.error _ => List.lookup s res := by
  intro L
  induction L with
  | nil =>
    intro res s
    cases hfs : fetchFor s <;> simp [hfs]
  | cons t rest ih =>
    intro res s
    simp only [List.foldl_cons]
    rw [ih]
    by_cases hts : t = s
    · subst hts
      cases hfs : fetchFor t with
      | ok q =>
        simp only [batch_step, hfs]
        by_cases hmem : t ∈ rest <;> simp [hmem, lookup_dictInsert_self]
      | error e =>
        simp only [batch_step, hfs]
    · have hne : s ≠ t := fun he => hts he.symm
      have hstep : List.lookup s (batch_step fetchFor res t) = List.lookup s res := by
        cases hft : fetchFor t with
        | ok q => simp only [batch_step, hft]; exact lookup_dictInsert_of_ne res t s q hne
        | error e => simp only [batch_step, hft]
      cases hfs : fetchFor s with
      | ok q =>
        simp only [hfs, hstep, List.mem_cons]
        by_cases hmem : s ∈ rest <;> simp [hmem, hne]
      | error e => simp only [hfs, hstep]

/-! ### Batch validation (C4) -/

/-- C4 (corrected): the FastAPI variant rejects an *empty parameter string*
before any per-symbol work and rejects a parsed list of more than 20 symbols
before any per-symbol work; the nested variant rejects a parsed-empty symbol
list.  (A non-empty FastAPI parameter that parses to the empty list is *not*
rejected — see the counterexample — and the nested variant has no ceiling.) -/
theorem claim_C4 (fetchFor : String → Except String Quote) (symbols : String) :
    (symbols = "" →
      get_multiple_stocks_fastapi fetchFor symbols =
        (BatchOutcome.httpError 400
          "Missing symbols parameter - provide only portfolio stocks", 0)) ∧
    (20 < (parse_symbols symbols).length →
      get_multiple_stocks_fastapi fetchFor symbols =
        (BatchOutcome.httpError 400
          "Too many symbols requested. Maximum 20 portfolio stocks allowed.", 0)) ∧
    (symbols ≠ "" → parse_symbols symbols = [] →
      get_multiple_stocks_nested fetchFor symbols =
        (BatchOutcome.httpError 400 "No valid symbols provided", 0)) := by
  refine ⟨?_, ?_, ?_⟩
  · intro h
    rw [get_multiple_stocks_fastapi, if_pos h]
  · intro h20
    have hne : symbols ≠ "" := by
      intro h
      subst h
      have : parse_symbols "" = [] := by decide
      rw [this] at h20
      simp at h20
    rw [get_multiple_stocks_fastapi, if_neg hne, if_pos h20]
  · intro hne hparse
    rw [get_multiple_stocks_nested, if_neg hne, if_pos (by rw [hparse]; rfl)]

/-- C4 counterexample: the caller input `","` parses to an *empty symbol list*
yet is not rejected by the FastAPI variant — it yields a successful response
with `total_requested = 0` instead of an `InvalidRequest` rejection. -/
theorem claim_C4_counterexample :
    parse_symbols "," = [] ∧
    (get_multiple_stocks_fastapi (fun _ => Except.error "x") ",").1 =
      BatchOutcome.ok
        { results := [], total_requested := 0, total_successful := 0, errors := none } := by
  exact ⟨by decide, rfl⟩

theorem claim_C4_witness :
    get_multiple_stocks_fastapi (fun _ => Except.error "x") "" =
      (BatchOutcome.httpError 400
        "Missing symbols parameter - provide only portfolio stocks", 0) ∧
    get_multiple_stocks_fastapi (fun _ => Except.error "x")
        "A,B,C,D,E,F,G,H,I,J,K,L,M,N,O,P,Q,R,S,T,U" =
      (BatchOutcome.httpError 400
        "Too many symbols requested. Maximum 20 portfolio stocks allowed.", 0) ∧
    get_multiple_stocks_nested (fun _ => Except.error "x") " , " =
      (BatchOutcome.httpError 400 "No valid symbols provided", 0) := by
  refine ⟨(claim_C4 (fun _ => Except.error "x") "").1 rfl, ?_, ?_⟩
  · exact (claim_C4 (fun _ => Except.error "x")
      "A,B,C,D,E,F,G,H,I,J,K,L,M,N,O,P,Q,R,S,T,U").2.1 (by decide)
  · exact (claim_C4 (fun _ => Except.error "x") " , ").2.2 (by decide) (by decide)

/-! ### Batch isolation (C5) -/

/-- C5 (corrected): for every validated FastAPI batch request, a per-symbol
failure never aborts the batch — every parsed symbol is dispatched, the
response is a success response reporting `total_requested` and
`total_successful = len(results)`, the errors list collects exactly the failed
symbols' entries in `"symbol: message"` format in order (absent when no
failures), each successful symbol's quote is in the results map and each
failed symbol is absent from it and present in the errors list.  (The nested
variant formats entries as `"Failed to fetch symbol: message"` instead — see
the counterexample.) -/
theorem claim_C5 (fetchFor : String → Except String Quote) (symbols : String)
    (hne : symbols ≠ "") (hle : (parse_symbols symbols).length ≤ 20) :
    (get_multiple_stocks_fastapi fetchFor symbols).2 = (parse_symbols symbols).length ∧
    (∀ status msg, (get_multiple_stocks_fastapi fetchFor symbols).1 ≠
      BatchOutcome.httpError status msg) ∧
    (∀ r, (get_multiple_stocks_fastapi fetchFor symbols).1 = BatchOutcome.ok r →
      r.total_requested = (parse_symbols symbols).length ∧
      r.total_successful = r.results.length ∧
      r.errors = (if ((parse_symbols symbols).filterMap (fun s =>
          match fetchFor s with
          | Except.ok _ => none
          | Except.error e => some (error_entry_fastapi s e))).isEmpty then none
        else some ((parse_symbols symbols).filterMap (fun s =>
          match fetchFor s with
          | Except.ok _ => none
          | Except.error e => some (error_entry_fastapi s e)))) ∧
      (∀ s ∈ parse_symbols symbols,
        (∀ q, fetchFor s = Except.ok q → List.lookup s r.results = some q) ∧
        (∀ e, fetchFor s = Except.error e →
          List.lookup s r.results = none ∧
          error_entry_fastapi s e ∈ r.errors.getD []))) := by
  have hrun : get_multiple_stocks_fastapi fetchFor symbols =
      (BatchOutcome.ok
        { results := (parse_symbols symbols).foldl (batch_step fetchFor) []
          total_requested := (parse_symbols symbols).length
          total_successful := ((parse_symbols symbols).foldl (batch_step fetchFor) []).length
          errors := (if ((parse_symbols symbols).filterMap (fun s =>
              match fetchFor s with
              | Except.ok _ => none
              | Except.error e => some (error_entry_fastapi s e))).isEmpty then none
            else some ((parse_symbols symbols).filterMap (fun s =>
              match fetchFor s with
              | Except.ok _ => none
              | Except.error e => some (error_entry_fastapi s e)))) },
       (parse_symbols symbols).length) := by
    rw [get_multiple_stocks_fastapi, if_neg hne, if_neg (not_lt.mpr hle),
      gms_loop_spec error_entry_fastapi fetchFor (parse_symbols symbols) [] []]
    simp
  refine ⟨by rw [hrun], by rw [hrun]; intro status msg h; exact BatchOutcome.noConfusion h, ?_⟩
  intro r hr
  rw [hrun] at hr
  rw [BatchOutcome.ok.injEq] at hr
  subst hr
  refine ⟨rfl, rfl, rfl, ?_⟩
  intro s hs
  constructor
  · intro q hq
    rw [batch_foldl_lookup fetchFor (parse_symbols symbols) [] s]
    simp [hq, hs]
  · intro e he
    constructor
    · rw [batch_foldl_lookup fetchFor (parse_symbols symbols) [] s]
      simp [he]
    · have hmem : error_entry_fastapi s e ∈ (parse_symbols symbols).filterMap (fun s =>
          match fetchFor s with
          | Except.ok _ => none
          | Except.error e => some (error_entry_fastapi s e)) := by
        rw [List.mem_filterMap]
        exact ⟨s, hs, by rw [he]⟩
      have hnonempty : ¬((parse_symbols symbols).filterMap (fun s =>
          match fetchFor s with
          | Except.ok _ => none
          | Except.error e => some (error_entry_fastapi s e))).isEmpty = true := by
        intro hemp
        rw [List.isEmpty_iff] at hemp
        rw [hemp] at hmem
        exact List.not_mem_nil _ hmem
      simp only [if_neg hnonempty, Option.getD_some]
      exact hmem

/-- C5 counterexample: the nested variant records a failed symbol `PETR4` with
message `boom` as `"Failed to fetch PETR4: boom"`, not in the claimed
`"symbol: message"` format `"PETR4: boom"` (isolation itself still holds). -/
theorem claim_C5_counterexample :
    (get_multiple_stocks_nested (fun _ => Except.error "boom") "PETR4").1 =
      BatchOutcome.ok
        { results := [], total_requested := 1, total_successful := 0,
          errors := some ["Failed to fetch PETR4: boom"] } ∧
    "Failed to fetch PETR4: boom" ≠ "PETR4: boom" := by
  exact ⟨rfl, by decide⟩

theorem claim_C5_witness :
    ("GOODB,FAILA" : String) ≠ "" ∧
    (parse_symbols "GOODB,FAILA").length ≤ 20 ∧
    (get_multiple_stocks_fastapi
        (fun s => if s = "FAILA" then Except.error "boom" else Except.ok sampleQuote)
        "GOODB,FAILA").2 = (parse_symbols "GOODB,FAILA").length ∧
    (get_multiple_stocks_fastapi
        (fun s => if s = "FAILA" then Except.error "boom" else Except.ok sampleQuote)
        "GOODB,FAILA").1 =
      BatchOutcome.ok
        { results := [("GOODB", sampleQuote)], total_requested := 2,
          total_successful := 1, errors := some ["FAILA: boom"] } := by
  refine ⟨by decide, by decide, ?_, rfl⟩
  exact (claim_C5
    (fun s => if s = "FAILA" then Except.error "boom" else Except.ok sampleQuote)
    "GOODB,FAILA" (by decide) (by decide)).1

end Optimus
